import Mathlib

/-!
Verification development for the chat client's two core pipelines:
the attachment ingestion pipeline (`InputArea` in `components/ChatMessage.tsx`)
and the speech playback pipeline (`handleSpeak`/`stopAudio` in `src/App.tsx`),
plus the playback-rate configuration handling.

The TypeScript source is shallowly embedded: React `useState`/`useRef` cells
become fields of an explicit state record, each event handler becomes a pure
state-transition function, and the asynchronous callbacks (FileReader events,
awaited promises) become environment-driven events of a step relation.
-/

namespace Spec2Proof

/-! ## Base64 primitives

`FileReader.readAsDataURL` (a browser primitive used by `processFiles`)
produces the string `"data:" ++ mimeType ++ ";base64," ++ base64(bytes)`.
We embed standard base64 over byte lists. The decoder is the spec-side
inverse used to state the round-trip property. -/
/-- The 64-character base64 alphabet, indices 0..63. -/
def b64alphabet : List Char :=
  ['A','B','C','D','E','F','G','H','I','J','K','L','M','N','O','P',
   'Q','R','S','T','U','V','W','X','Y','Z',
   'a','b','c','d','e','f','g','h','i','j','k','l','m','n','o','p',
   'q','r','s','t','u','v','w','x','y','z',
   '0','1','2','3','4','5','6','7','8','9','+','/']

/-- Character for a 6-bit group. -/
def encChar (n : Nat) : Char := b64alphabet.getD n 'A'

/-- Index of a base64 character in the alphabet. -/
def decChar (c : Char) : Nat := b64alphabet.indexOf c

/-- Base64-encode a byte list, with `=` padding. -/
def b64encodeBytes : List (Fin 256) → List Char
  | [] => []
  | [a] => [encChar (a.val / 4), encChar (a.val % 4 * 16), '=', '=']
  | [a, b] => [encChar (a.val / 4), encChar (a.val % 4 * 16 + b.val / 16),
               encChar (b.val % 16 * 4), '=']
  | a :: b :: c :: rest =>
      encChar (a.val / 4) :: encChar (a.val % 4 * 16 + b.val / 16) ::
      encChar (b.val % 16 * 4 + c.val / 64) :: encChar (c.val % 64) ::
      b64encodeBytes rest

/-- Base64-decode a character list back to bytes (as `Nat`s). -/
def b64decodeChars : List Char → List Nat
  | a :: b :: c :: d :: rest =>
      if c = '=' then
        [decChar a * 4 + decChar b / 16]
      else if d = '=' then
        [decChar a * 4 + decChar b / 16,
         decChar b % 16 * 16 + decChar c / 4]
      else
        (decChar a * 4 + decChar b / 16) ::
        (decChar b % 16 * 16 + decChar c / 4) ::
        (decChar c % 4 * 64 + decChar d) :: b64decodeChars rest
  | _ => []

/-! ## JavaScript `String.prototype.split` on a single-character separator

`processFiles` extracts the base64 payload of a data URL with
`result.split(',')[1]`. We embed the split at the character-list level. -/
/-- JavaScript `split` with a one-character separator. -/
def splitOnChar (sep : Char) : List Char → List (List Char)
  | [] => [[]]
  | c :: rest =>
      if c = sep then [] :: splitOnChar sep rest
      else
        match splitOnChar sep rest with
        | [] => [[c]]
        | g :: gs => (c :: g) :: gs

/-! ## Data model of the attachment ingestion pipeline

Embeds the `InputArea` component state (`components/ChatMessage.tsx`):
`input`, `attachments`, `isProcessing`, `activeReaders` become record
fields; `alerts` counts `alert(...)` calls; `sent` records the
`onSendMessage` calls; `isLoading` is the prop passed in by `App`;
`quotedMessage` carries the quoted message's text. -/
/-- A raw file handle (browser `File`): declared MIME type, name, bytes. -/
structure FFile where
  ftype : String
  fname : String
  content : List (Fin 256)
deriving DecidableEq, Repr

/-- One in-flight `FileReader` (a PendingConversion). `rid` models JS object
identity (`activeReaders.current.indexOf(reader)`); ids are never reused. -/
structure Reader where
  rid : Nat
  file : FFile
deriving DecidableEq, Repr

/-- An attachment record (`Attachment` in `types.ts`): `data` is the base64
payload, `url` the full data URL kept for preview. -/
structure Attachment where
  mimeType : String
  data : List Char
  url : Option (List Char)
  aname : Option String
  size : Option Nat
deriving DecidableEq, Repr

/-- `FileReader.readAsDataURL` result (browser primitive):
`"data:" + mimeType + ";base64," + base64(bytes)`. -/
def dataURLChars (f : FFile) : List Char :=
  "data:".toList ++ f.ftype.toList ++ ";base64,".toList ++ b64encodeBytes f.content

/-- The attachment built in `reader.onload`: the data URL is split on `','`
and element 1 is taken as the base64 payload (the `data:...;base64,` format
prefix is stripped). -/
def attachmentOfFile (f : FFile) : Attachment :=
  { mimeType := f.ftype
    data := (splitOnChar ',' (dataURLChars f)).getD 1 []
    url := some (dataURLChars f)
    aname := some f.fname
    size := some f.content.length }

/-- State of the `InputArea` component. -/
structure InputState where
  input : String
  attachments : List Attachment
  isProcessing : Bool
  activeReaders : List Reader
  nextId : Nat
  alerts : Nat
  isLoading : Bool
  quotedMessage : Option String
  sent : List (String × List Attachment)
deriving DecidableEq, Repr

def initI : InputState :=
  { input := "", attachments := [], isProcessing := false, activeReaders := []
    nextId := 0, alerts := 0, isLoading := false, quotedMessage := none, sent := [] }

/-- `startsWith` at the character-list level. -/
def listStartsWith : List Char → List Char → Bool
  | _, [] => true
  | [], _ :: _ => false
  | a :: as, p :: ps => a == p && listStartsWith as ps

/-- `f.type.startsWith('image/')`. -/
def isImageType (f : FFile) : Bool :=
  listStartsWith f.ftype.toList "image/".toList

/-- Files whose declared type begins with `image/`
(`files.filter(f => f.type.startsWith('image/'))`). -/
def imagesOf (files : List FFile) : List FFile :=
  files.filter isImageType

/-- One fresh `FileReader` per accepted file, in order. -/
def spawnReaders (files : List FFile) (startId : Nat) : List Reader :=
  match files with
  | [] => []
  | f :: rest => ⟨startId, f⟩ :: spawnReaders rest (startId + 1)

/-- `processFiles` (`ChatMessage.tsx` lines 351-392): filter to image files
(`validFiles`); if none but the input was non-empty,
`alert('Only image files are supported.')` and return; otherwise set
`isProcessing` and start one reader per valid file. -/
def processFiles (files : List FFile) (s : InputState) : InputState :=
  if (imagesOf files).length = 0 ∧ 0 < files.length then
    { s with alerts := s.alerts + 1 }
  else
    { s with isProcessing := true
             activeReaders := s.activeReaders ++ spawnReaders (imagesOf files) s.nextId
             nextId := s.nextId + (imagesOf files).length }

/-- Remove the first reader with the given identity
(`indexOf` + `splice(index, 1)`). -/
def removeFirstReader (rid : Nat) : List Reader → List Reader
  | [] => []
  | r :: rs => if r.rid = rid then rs else r :: removeFirstReader rid rs

/-- `cleanupReader` (lines 394-402): drop the reader from `activeReaders`;
if the list is now empty, clear `isProcessing`. -/
def cleanupReader (rid : Nat) (s : InputState) : InputState :=
  { s with activeReaders := removeFirstReader rid s.activeReaders
           isProcessing := if (removeFirstReader rid s.activeReaders).isEmpty
                           then false else s.isProcessing }

/-- `cancelUpload` (lines 404-408): `reader.abort()` on every active reader —
each `abort` fires that reader's `onabort` synchronously, which runs
`cleanupReader` — then the list is reset to `[]` and `isProcessing` cleared. -/
def cancelUpload (s : InputState) : InputState :=
  let s1 := s.activeReaders.foldl (fun st r => cleanupReader r.rid st) s
  { s1 with activeReaders := [], isProcessing := false }

/-- `removeAttachment` (line 410): `prev.filter((_, i) => i !== index)`. -/
def removeIdx (i : Nat) (l : List Attachment) : List Attachment :=
  match i, l with
  | _, [] => []
  | 0, _ :: rest => rest
  | n + 1, a :: rest => a :: removeIdx n rest

/-- The quoted-text snippet: `text.substring(0, 200)` plus `'...'` when
longer than 200 characters. -/
def quoteSnippet (q : String) : String :=
  if q.length > 200 then String.mk (q.toList.take 200) ++ "..." else q

/-- The outgoing text built by `handleSend` (lines 305-309). -/
def finalText (s : InputState) : String :=
  match s.quotedMessage with
  | none => s.input
  | some q =>
      "[Replying to]: \"" ++ quoteSnippet q ++ "\"\n\n[My Message]: " ++ s.input

/-- `!input.trim()`: the input is empty after trimming, i.e. every character
is whitespace. -/
def trimEmpty (s : String) : Bool :=
  s.toList.all Char.isWhitespace

/-- The guard of `handleSend` (line 302) and the send button's `disabled`
condition (line 624):
`(!input.trim() && attachments.length === 0) || isLoading || isProcessing`. -/
def sendBlocked (s : InputState) : Bool :=
  (trimEmpty s.input && s.attachments.isEmpty) || s.isLoading || s.isProcessing

/-- `handleSend` (lines 301-319): if blocked, return; else build `finalText`
from the pre-clear state, clear the quote (`onClearQuote` fires only when a
quote is present, but clearing an absent quote is the same state), emit the
message, and clear input and attachments. -/
def handleSend (s : InputState) : InputState :=
  if sendBlocked s then s
  else
    { s with quotedMessage := none
             sent := s.sent ++ [(finalText s, s.attachments)]
             input := "", attachments := [] }

/-- Environment/user events driving the ingestion pipeline. `load` and
`readError` are the `FileReader` callbacks; a reader that was aborted or has
already resolved is no longer in `activeReaders` and the browser fires no
further events for it, so those cases are no-ops. -/
inductive IEvent where
  | submit (files : List FFile)
  | load (rid : Nat)
  | readError (rid : Nat)
  | cancel
  | clearAtts
  | removeAtt (i : Nat)
  | setInput (t : String)
  | setLoading (b : Bool)
  | send

/-- One step of the ingestion pipeline. -/
def stepI (e : IEvent) (s : InputState) : InputState :=
  match e with
  | .submit files => processFiles files s
  | .load rid =>
      match s.activeReaders.find? (fun r => r.rid == rid) with
      | some r =>
          cleanupReader rid
            { s with attachments := s.attachments ++ [attachmentOfFile r.file] }
      | none => s
  | .readError rid =>
      match s.activeReaders.find? (fun r => r.rid == rid) with
      | some _ => cleanupReader rid s
      | none => s
  | .cancel => cancelUpload s
  | .clearAtts => { cancelUpload s with attachments := [] }
  | .removeAtt i => { s with attachments := removeIdx i s.attachments }
  | .setInput t => { s with input := t }
  | .setLoading b => { s with isLoading := b }
  | .send => handleSend s

/-- Run a trace from a given state. -/
def runIFrom (t : List IEvent) (s : InputState) : InputState :=
  t.foldl (fun st e => stepI e st) s

/-- Run a trace from the initial state. -/
def runI (t : List IEvent) : InputState :=
  runIFrom t initI

/-- Files accepted for conversion by the events of a trace. -/
def eventImages : IEvent → List FFile
  | .submit files => imagesOf files
  | _ => []

def submittedImages : List IEvent → List FFile
  | [] => []
  | e :: t => eventImages e ++ submittedImages t

/-! ## The processing-flag invariant -/
/-- Whenever the PendingConversion set is non-empty, `isProcessing` is set. -/
def InvP (s : InputState) : Prop :=
  s.activeReaders = [] ∨ s.isProcessing = true

/-! ## Data model of the speech playback pipeline

Embeds `handleSpeak`/`stopAudio` (`src/App.tsx` lines 199-247). The React
state cells `isSpeakingId` and `speakingLoading` and the refs
`activeSourceRef` become record fields; `audible` is the set of source nodes
currently playing in the audio graph (fresh ids from `nextSrc`); `alerts`
counts `alert(...)` calls and `errorsLogged` counts `console.error` calls in
the catch handler. Each in-flight `handleSpeak` invocation is a `SpeakTask`
suspended at its next `await`; the environment resolves the awaits via
`SEvent`s. `generateSpeech`, `decodeAudioData` and `playAudioBuffer` are
external collaborators (the last two live in `utils/audioUtils.ts`, which is
not part of the sources); modelled from the spec: `playAudioBuffer` starts
playback of the decoded buffer immediately and its promise resolves on
natural end of playback. Note that nothing in `App.tsx` ever assigns the
created source node to `activeSourceRef` (only `null` is ever written). -/
/-- The continuation of one in-flight `handleSpeak` call. -/
inductive SpeakTask where
  | requesting (mid : String)
  | decoding (mid : String)
  | playing (mid : String) (src : Nat)
  | finished
deriving DecidableEq, Repr

structure SpeakState where
  isSpeakingId : Option String
  speakingLoading : Bool
  activeSource : Option Nat
  audible : List Nat
  alerts : Nat
  errorsLogged : Nat
  autoSpeak : Bool
  nextSrc : Nat
  tasks : List SpeakTask
deriving DecidableEq, Repr

def initS : SpeakState :=
  { isSpeakingId := none, speakingLoading := false, activeSource := none
    audible := [], alerts := 0, errorsLogged := 0, autoSpeak := false
    nextSrc := 0, tasks := [] }

/-- `stopAudio` (lines 199-207): if `activeSourceRef.current` is set, `stop()`
the node (removing it from the audio graph) and null the ref; always clear
`isSpeakingId`. -/
def stopAudio (s : SpeakState) : SpeakState :=
  match s.activeSource with
  | some src =>
      { s with audible := s.audible.filter (fun x => x ≠ src)
               activeSource := none, isSpeakingId := none }
  | none => { s with isSpeakingId := none }

/-- The synchronous prefix of `handleSpeak` (lines 209-218): toggle-off if the
same message is active, else stop the current audio, set the loading flag and
the speaking id, and launch the asynchronous remainder as a task. -/
def speakCall (mid : String) (s : SpeakState) : SpeakState :=
  if s.isSpeakingId = some mid then stopAudio s
  else
    { stopAudio s with
        speakingLoading := true
        isSpeakingId := some mid
        tasks := (stopAudio s).tasks ++ [SpeakTask.requesting mid] }

/-- The `catch` handler of `handleSpeak` (lines 241-246): log the error,
`alert` unless auto-speak is on, clear the speaking id and the loading flag. -/
def speakCatch (i : Nat) (s : SpeakState) : SpeakState :=
  { s with errorsLogged := s.errorsLogged + 1
           alerts := s.alerts + (if s.autoSpeak then 0 else 1)
           isSpeakingId := none, speakingLoading := false
           tasks := s.tasks.set i .finished }

/-- Environment events resolving the awaits of in-flight `handleSpeak`
invocations (`i` indexes the invocation in `tasks`): `synth i ok` resolves the
`generateSpeech` await (`ok = false` covers both a rejected promise and an
empty/missing payload, which line 230 turns into a thrown error);
`decode i ok` resolves `decodeAudioData`; `playEnd i` is the natural end of
playback resolving `playAudioBuffer`. -/
inductive SEvent where
  | speak (mid : String)
  | synth (i : Nat) (ok : Bool)
  | decode (i : Nat) (ok : Bool)
  | playEnd (i : Nat)
  | setAuto (b : Bool)

/-- One step of the speech playback pipeline. -/
def stepS (e : SEvent) (s : SpeakState) : SpeakState :=
  match e with
  | .speak mid => speakCall mid s
  | .synth i ok =>
      match s.tasks.getD i .finished with
      | .requesting mid =>
          if ok then { s with tasks := s.tasks.set i (.decoding mid) }
          else speakCatch i s
      | _ => s
  | .decode i ok =>
      match s.tasks.getD i .finished with
      | .decoding mid =>
          if ok then
            { s with audible := s.audible ++ [s.nextSrc]
                     nextSrc := s.nextSrc + 1
                     tasks := s.tasks.set i (.playing mid s.nextSrc) }
          else speakCatch i s
      | _ => s
  | .playEnd i =>
      match s.tasks.getD i .finished with
      | .playing _ src =>
          { s with audible := s.audible.filter (fun x => x ≠ src)
                   isSpeakingId := none, activeSource := none
                   speakingLoading := false
                   tasks := s.tasks.set i .finished }
      | _ => s
  | .setAuto b => { s with autoSpeak := b }

/-- Run a trace of playback events from the initial state. -/
def runS (t : List SEvent) : SpeakState :=
  t.foldl (fun st e => stepS e st) initS

/-! ## Playback-rate configuration

The speed slider (`App.tsx` lines 369-378) is
`<input type="range" min="0.5" max="2.0" step="0.1">`: per the HTML range
control semantics, its settable values are exactly
`min + k * step` for `0 ≤ k ≤ 15` within `[min, max]`. Settings load
(lines 53-54) applies any persisted value directly:
`if (savedSpeed) setTtsSpeed(parseFloat(savedSpeed))`. -/
def sliderMin : ℚ := 1 / 2

def sliderMax : ℚ := 2

def sliderStep : ℚ := 1 / 10

/-- The values the speed slider can produce. -/
def rangeAccepts (q : ℚ) : Prop :=
  ∃ k : ℕ, k ≤ 15 ∧ q = sliderMin + (k : ℚ) * sliderStep

/-- The settings-load path for the persisted speed: the stored value, when
present, becomes the configured rate with no validation. -/
def loadSavedSpeed (saved : Option ℚ) (cur : ℚ) : ℚ :=
  match saved with
  | some v => v
  | none => cur

/-! ## Concrete sample values used by the witnesses -/
def pngFile : FFile := { ftype := "image/png", fname := "a.png", content := [137, 80, 78, 71] }

def txtFile : FFile := { ftype := "text/plain", fname := "a.txt", content := [104, 105] }

theorem decChar_encChar (n : Nat) (h : n < 64) : decChar (encChar n) = n := by
  revert h
  exact (by decide : ∀ m, m < 64 → decChar (encChar m) = m) n

theorem encChar_ne_eq_ne_comma (n : Nat) : encChar n ≠ '=' ∧ encChar n ≠ ',' := by
  rcases Nat.lt_or_ge n 64 with h | h
  · exact (by decide : ∀ m, m < 64 → encChar m ≠ '=' ∧ encChar m ≠ ',') n h
  · have hlen : b64alphabet.length ≤ n := by
      have : b64alphabet.length = 64 := by decide
      omega
    have : encChar n = 'A' := List.getD_eq_default _ _ hlen
    rw [this]
    exact ⟨by decide, by decide⟩

theorem encChar_ne_comma (n : Nat) : encChar n ≠ ',' :=
  (encChar_ne_eq_ne_comma n).2

theorem mem_b64encodeBytes_ne_comma (bs : List (Fin 256)) :
    ∀ c ∈ b64encodeBytes bs, c ≠ ',' := by
  induction bs using b64encodeBytes.induct with
  | case1 =>
      intro c hc
      simp [b64encodeBytes] at hc
  | case2 a =>
      intro c hc
      simp only [b64encodeBytes, List.mem_cons, List.mem_singleton] at hc
      rcases hc with h | h | h | h | h
      all_goals first
        | (subst h; exact encChar_ne_comma _)
        | (subst h; decide)
        | cases h
  | case3 a b =>
      intro c hc
      simp only [b64encodeBytes, List.mem_cons, List.mem_singleton] at hc
      rcases hc with h | h | h | h | h
      all_goals first
        | (subst h; exact encChar_ne_comma _)
        | (subst h; decide)
        | cases h
  | case4 a b c rest ih =>
      intro x hx
      simp only [b64encodeBytes, List.mem_cons] at hx
      rcases hx with h | h | h | h | h
      · subst h; exact encChar_ne_comma _
      · subst h; exact encChar_ne_comma _
      · subst h; exact encChar_ne_comma _
      · subst h; exact encChar_ne_comma _
      · exact ih x h

theorem arith_tail1 (a : Nat) (_ha : a < 256) : a / 4 * 4 + a % 4 * 16 / 16 = a := by
  have e : a % 4 * 16 / 16 = a % 4 := Nat.mul_div_cancel _ (by omega)
  rw [e]
  omega

theorem arith_byte1 (a b : Nat) (hb : b < 256) :
    a / 4 * 4 + (a % 4 * 16 + b / 16) / 16 = a := by
  have e : (a % 4 * 16 + b / 16) / 16 = a % 4 := by
    rw [mul_comm (a % 4) 16, Nat.mul_add_div (by omega)]
    have e0 : b / 16 / 16 = 0 := Nat.div_eq_of_lt (by omega)
    rw [e0, Nat.add_zero]
  rw [e]
  omega

theorem arith_byte2 (a b c : Nat) (hb : b < 256) (hc : c < 256) :
    (a % 4 * 16 + b / 16) % 16 * 16 + (b % 16 * 4 + c / 64) / 4 = b := by
  have e1 : (a % 4 * 16 + b / 16) % 16 = b / 16 := by
    rw [mul_comm (a % 4) 16, Nat.mul_add_mod]
    exact Nat.mod_eq_of_lt (by omega)
  have e2 : (b % 16 * 4 + c / 64) / 4 = b % 16 := by
    rw [mul_comm (b % 16) 4, Nat.mul_add_div (by omega)]
    have e0 : c / 64 / 4 = 0 := Nat.div_eq_of_lt (by omega)
    rw [e0, Nat.add_zero]
  rw [e1, e2]
  omega

theorem arith_tail2 (a b : Nat) (hb : b < 256) :
    (a % 4 * 16 + b / 16) % 16 * 16 + b % 16 * 4 / 4 = b := by
  have e1 : (a % 4 * 16 + b / 16) % 16 = b / 16 := by
    rw [mul_comm (a % 4) 16, Nat.mul_add_mod]
    exact Nat.mod_eq_of_lt (by omega)
  have e2 : b % 16 * 4 / 4 = b % 16 := Nat.mul_div_cancel _ (by omega)
  rw [e1, e2]
  omega

theorem arith_byte3 (b c : Nat) (hc : c < 256) :
    (b % 16 * 4 + c / 64) % 4 * 64 + c % 64 = c := by
  have e1 : (b % 16 * 4 + c / 64) % 4 = c / 64 := by
    rw [mul_comm (b % 16) 4, Nat.mul_add_mod]
    exact Nat.mod_eq_of_lt (by omega)
  rw [e1]
  omega

/-- The base64 round-trip: decoding an encoded byte list yields the bytes. -/
theorem b64_roundtrip (bs : List (Fin 256)) :
    b64decodeChars (b64encodeBytes bs) = bs.map Fin.val := by
  induction bs using b64encodeBytes.induct with
  | case1 => rfl
  | case2 a =>
      have ha := a.isLt
      have h1 : a.val / 4 < 64 := by omega
      have h2 : a.val % 4 * 16 < 64 := by omega
      show b64decodeChars
        [encChar (a.val / 4), encChar (a.val % 4 * 16), '=', '='] = [a.val]
      rw [b64decodeChars, if_pos rfl, decChar_encChar _ h1, decChar_encChar _ h2,
        arith_tail1 a.val ha]
  | case3 a b =>
      have ha := a.isLt
      have hb := b.isLt
      have h1 : a.val / 4 < 64 := by omega
      have h2 : a.val % 4 * 16 + b.val / 16 < 64 := by omega
      have h3 : b.val % 16 * 4 < 64 := by omega
      show b64decodeChars
        [encChar (a.val / 4), encChar (a.val % 4 * 16 + b.val / 16),
         encChar (b.val % 16 * 4), '='] = [a.val, b.val]
      rw [b64decodeChars, if_neg (encChar_ne_eq_ne_comma _).1, if_pos rfl,
        decChar_encChar _ h1, decChar_encChar _ h2, decChar_encChar _ h3,
        arith_byte1 a.val b.val hb, arith_tail2 a.val b.val hb]
  | case4 a b c rest ih =>
      have ha := a.isLt
      have hb := b.isLt
      have hc := c.isLt
      have h1 : a.val / 4 < 64 := by omega
      have h2 : a.val % 4 * 16 + b.val / 16 < 64 := by omega
      have h3 : b.val % 16 * 4 + c.val / 64 < 64 := by omega
      have h4 : c.val % 64 < 64 := by omega
      show b64decodeChars
        (encChar (a.val / 4) :: encChar (a.val % 4 * 16 + b.val / 16) ::
         encChar (b.val % 16 * 4 + c.val / 64) :: encChar (c.val % 64) ::
         b64encodeBytes rest) = a.val :: b.val :: c.val :: rest.map Fin.val
      rw [b64decodeChars, if_neg (encChar_ne_eq_ne_comma _).1,
        if_neg (encChar_ne_eq_ne_comma _).1,
        decChar_encChar _ h1, decChar_encChar _ h2, decChar_encChar _ h3,
        decChar_encChar _ h4, ih,
        arith_byte1 a.val b.val hb, arith_byte2 a.val b.val c.val hb hc,
        arith_byte3 b.val c.val hc]

theorem splitOnChar_of_not_mem (sep : Char) (l : List Char) (h : sep ∉ l) :
    splitOnChar sep l = [l] := by
  induction l with
  | nil => rfl
  | cons c rest ih =>
      have hc : c ≠ sep := fun e => h (e ▸ List.mem_cons_self c rest)
      have hrest : sep ∉ rest := fun m => h (List.mem_cons_of_mem c m)
      rw [splitOnChar, if_neg hc, ih hrest]

theorem splitOnChar_append_sep (sep : Char) (l₁ l₂ : List Char) (h : sep ∉ l₁) :
    splitOnChar sep (l₁ ++ sep :: l₂) = l₁ :: splitOnChar sep l₂ := by
  induction l₁ with
  | nil => simp [splitOnChar]
  | cons c rest ih =>
      have hc : c ≠ sep := fun e => h (e ▸ List.mem_cons_self c rest)
      have hrest : sep ∉ rest := fun m => h (List.mem_cons_of_mem c m)
      rw [List.cons_append, splitOnChar, if_neg hc, ih hrest]

/-! ## Structural lemmas about the ingestion pipeline -/
theorem spawnReaders_length (files : List FFile) (n : Nat) :
    (spawnReaders files n).length = files.length := by
  induction files generalizing n with
  | nil => rfl
  | cons f rest ih => simp [spawnReaders, ih]

theorem mem_spawnReaders (files : List FFile) (n : Nat) (r : Reader)
    (h : r ∈ spawnReaders files n) : r.file ∈ files := by
  induction files generalizing n with
  | nil => cases h
  | cons f rest ih =>
      rw [spawnReaders] at h
      rcases List.mem_cons.mp h with h | h
      · subst h; exact List.mem_cons_self _ _
      · exact List.mem_cons_of_mem _ (ih (n + 1) h)

theorem mem_removeFirstReader (rid : Nat) (l : List Reader) (r : Reader)
    (h : r ∈ removeFirstReader rid l) : r ∈ l := by
  induction l with
  | nil => cases h
  | cons x rest ih =>
      rw [removeFirstReader] at h
      by_cases hx : x.rid = rid
      · rw [if_pos hx] at h
        exact List.mem_cons_of_mem _ h
      · rw [if_neg hx] at h
        rcases List.mem_cons.mp h with h | h
        · subst h; exact List.mem_cons_self _ _
        · exact List.mem_cons_of_mem _ (ih h)

/-- A fold of `cleanupReader` calls only touches `activeReaders` and
`isProcessing`. -/
theorem cleanup_fold_shape (l : List Reader) (s : InputState) :
    ∃ rs p, l.foldl (fun st r => cleanupReader r.rid st) s =
      { s with activeReaders := rs, isProcessing := p } := by
  induction l generalizing s with
  | nil => exact ⟨s.activeReaders, s.isProcessing, rfl⟩
  | cons r rest ih =>
      obtain ⟨rs, p, hp⟩ := ih (cleanupReader r.rid s)
      exact ⟨rs, p, by rw [List.foldl_cons, hp]; rfl⟩

/-- Net effect of `cancelUpload`: readers cleared, `isProcessing` cleared,
everything else (in particular `attachments`) untouched. -/
theorem cancelUpload_eq (s : InputState) :
    cancelUpload s = { s with activeReaders := [], isProcessing := false } := by
  obtain ⟨rs, p, hp⟩ := cleanup_fold_shape s.activeReaders s
  rw [cancelUpload, hp]

theorem mem_removeIdx (i : Nat) (l : List Attachment) (a : Attachment)
    (h : a ∈ removeIdx i l) : a ∈ l := by
  induction l generalizing i with
  | nil => cases i <;> cases h
  | cons x rest ih =>
      cases i with
      | zero =>
          rw [removeIdx] at h
          exact List.mem_cons_of_mem _ h
      | succ n =>
          rw [removeIdx] at h
          rcases List.mem_cons.mp h with h | h
          · subst h; exact List.mem_cons_self _ _
          · exact List.mem_cons_of_mem _ (ih n h)

theorem stepI_attachment_mem (e : IEvent) (s : InputState) (a : Attachment)
    (ha : a ∈ (stepI e s).attachments) :
    a ∈ s.attachments ∨ ∃ r ∈ s.activeReaders, a = attachmentOfFile r.file := by
  cases e with
  | submit files =>
      rw [stepI, processFiles] at ha
      split at ha
      · exact Or.inl ha
      · exact Or.inl ha
  | load rid =>
      rw [stepI] at ha
      cases hf : s.activeReaders.find? (fun r => r.rid == rid) with
      | none => rw [hf] at ha; exact Or.inl ha
      | some r =>
          rw [hf] at ha
          simp only [cleanupReader, List.mem_append, List.mem_singleton] at ha
          rcases ha with h | h
          · exact Or.inl h
          · exact Or.inr ⟨r, List.mem_of_find?_eq_some hf, h⟩
  | readError rid =>
      rw [stepI] at ha
      cases hf : s.activeReaders.find? (fun r => r.rid == rid) with
      | none => rw [hf] at ha; exact Or.inl ha
      | some r => rw [hf] at ha; exact Or.inl ha
  | cancel =>
      rw [stepI, cancelUpload_eq] at ha
      exact Or.inl ha
  | clearAtts =>
      rw [stepI] at ha
      cases ha
  | removeAtt i =>
      exact Or.inl (mem_removeIdx i s.attachments a ha)
  | setInput t => exact Or.inl ha
  | setLoading b => exact Or.inl ha
  | send =>
      rw [stepI, handleSend] at ha
      split at ha
      · exact Or.inl ha
      · cases ha

theorem stepI_reader_mem (e : IEvent) (s : InputState) (r : Reader)
    (hr : r ∈ (stepI e s).activeReaders) :
    r ∈ s.activeReaders ∨ r.file ∈ eventImages e := by
  cases e with
  | submit files =>
      rw [stepI, processFiles] at hr
      split at hr
      · exact Or.inl hr
      · simp only [List.mem_append] at hr
        rcases hr with h | h
        · exact Or.inl h
        · exact Or.inr (mem_spawnReaders _ _ _ h)
  | load rid =>
      rw [stepI] at hr
      cases hf : s.activeReaders.find? (fun x => x.rid == rid) with
      | none => rw [hf] at hr; exact Or.inl hr
      | some x =>
          rw [hf] at hr
          exact Or.inl (mem_removeFirstReader _ _ _ hr)
  | readError rid =>
      rw [stepI] at hr
      cases hf : s.activeReaders.find? (fun x => x.rid == rid) with
      | none => rw [hf] at hr; exact Or.inl hr
      | some x =>
          rw [hf] at hr
          exact Or.inl (mem_removeFirstReader _ _ _ hr)
  | cancel =>
      rw [stepI, cancelUpload_eq] at hr
      cases hr
  | clearAtts =>
      rw [stepI] at hr
      rw [show ({ cancelUpload s with attachments := [] } : InputState).activeReaders
            = (cancelUpload s).activeReaders from rfl, cancelUpload_eq] at hr
      cases hr
  | removeAtt i => exact Or.inl hr
  | setInput t => exact Or.inl hr
  | setLoading b => exact Or.inl hr
  | send =>
      rw [stepI, handleSend] at hr
      split at hr
      · exact Or.inl hr
      · exact Or.inl hr

/-- Provenance of attachments: anything in the attachment list after running
a trace was already there, or came from a reader active at the start, or from
an image file submitted during the trace. -/
theorem attachments_provenance (t : List IEvent) :
    ∀ (s : InputState), ∀ a ∈ (runIFrom t s).attachments,
      a ∈ s.attachments ∨ (∃ r ∈ s.activeReaders, a = attachmentOfFile r.file) ∨
        (∃ f ∈ submittedImages t, a = attachmentOfFile f) := by
  induction t with
  | nil => exact fun s a ha => Or.inl ha
  | cons e t ih =>
      intro s a ha
      have ha' := ih (stepI e s) a ha
      rcases ha' with h | ⟨r, hr, he⟩ | ⟨f, hf, he⟩
      · rcases stepI_attachment_mem e s a h with h1 | ⟨r, hr, he⟩
        · exact Or.inl h1
        · exact Or.inr (Or.inl ⟨r, hr, he⟩)
      · rcases stepI_reader_mem e s r hr with h1 | h1
        · exact Or.inr (Or.inl ⟨r, h1, he⟩)
        · exact Or.inr (Or.inr ⟨r.file,
            by rw [submittedImages]; exact List.mem_append_left _ h1, he⟩)
      · exact Or.inr (Or.inr ⟨f,
          by rw [submittedImages]; exact List.mem_append_right _ hf, he⟩)

theorem cleanupReader_invP (rid : Nat) (s : InputState) (h : InvP s) :
    InvP (cleanupReader rid s) := by
  rw [cleanupReader]
  rcases h with h | h
  · left
    show removeFirstReader rid s.activeReaders = []
    rw [h, removeFirstReader]
  · cases hrs : (removeFirstReader rid s.activeReaders).isEmpty with
    | true =>
        left
        show removeFirstReader rid s.activeReaders = []
        exact List.isEmpty_iff.mp hrs
    | false =>
        right
        simpa using h

theorem stepI_invP (e : IEvent) (s : InputState) (h : InvP s) :
    InvP (stepI e s) := by
  cases e with
  | submit files =>
      rw [stepI, processFiles]
      split
      · exact h
      · exact Or.inr rfl
  | load rid =>
      rw [stepI]
      cases hf : s.activeReaders.find? (fun r => r.rid == rid) with
      | none => exact h
      | some r =>
          exact cleanupReader_invP rid
            { s with attachments := s.attachments ++ [attachmentOfFile r.file] } h
  | readError rid =>
      rw [stepI]
      cases hf : s.activeReaders.find? (fun r => r.rid == rid) with
      | none => exact h
      | some r => exact cleanupReader_invP rid s h
  | cancel =>
      rw [stepI, cancelUpload_eq]
      exact Or.inl rfl
  | clearAtts =>
      rw [stepI]
      left
      show (cancelUpload s).activeReaders = []
      rw [cancelUpload_eq]
  | removeAtt i => exact h
  | setInput t => exact h
  | setLoading b => exact h
  | send =>
      rw [stepI, handleSend]
      split
      · exact h
      · exact h

theorem runIFrom_invP (t : List IEvent) :
    ∀ (s : InputState), InvP s → InvP (runIFrom t s) := by
  induction t with
  | nil => exact fun s h => h
  | cons e t ih => exact fun s h => ih (stepI e s) (stepI_invP e s h)

theorem runI_invP (t : List IEvent) : InvP (runI t) :=
  runIFrom_invP t initI (Or.inl rfl)

/-! ## Claim theorems -/
/-- Claim C3: for a batch of N files of which K have a type beginning with
`image/`: if K ≥ 1, `processFiles` registers exactly K pending conversions
(one reader per image file, the others rejected without blocking them) and
raises no validation alert; if K = 0 and N > 0, it raises exactly one
validation alert and starts zero conversions, leaving all other state
unchanged. -/
theorem c3_submit_batch (files : List FFile) (s : InputState) :
    (1 ≤ (imagesOf files).length →
       (processFiles files s).activeReaders.length
           = s.activeReaders.length + (imagesOf files).length ∧
       (processFiles files s).alerts = s.alerts) ∧
    ((imagesOf files).length = 0 → files ≠ [] →
       (processFiles files s).alerts = s.alerts + 1 ∧
       (processFiles files s).activeReaders = s.activeReaders ∧
       (processFiles files s).attachments = s.attachments ∧
       (processFiles files s).isProcessing = s.isProcessing) := by
  constructor
  · intro hK
    rw [processFiles, if_neg (fun h => by omega)]
    exact ⟨by simp [spawnReaders_length], rfl⟩
  · intro hK hne
    have hpos : 0 < files.length := List.length_pos.mpr hne
    rw [processFiles, if_pos ⟨hK, hpos⟩]
    exact ⟨rfl, rfl, rfl, rfl⟩

theorem c3_submit_batch_witness :
    (imagesOf [txtFile, pngFile, pngFile]).length = 2 ∧
    ((processFiles [txtFile, pngFile, pngFile] initI).activeReaders.length
        = initI.activeReaders.length + (imagesOf [txtFile, pngFile, pngFile]).length ∧
     (processFiles [txtFile, pngFile, pngFile] initI).alerts = initI.alerts) ∧
    ((processFiles [txtFile] initI).alerts = initI.alerts + 1 ∧
     (processFiles [txtFile] initI).activeReaders = initI.activeReaders ∧
     (processFiles [txtFile] initI).attachments = initI.attachments ∧
     (processFiles [txtFile] initI).isProcessing = initI.isProcessing) :=
  ⟨by decide,
   (c3_submit_batch [txtFile, pngFile, pngFile] initI).1 (by decide),
   (c3_submit_batch [txtFile] initI).2 (by decide) (by decide)⟩

/-- Claim C4 (code-bug exhibit): calling `processFiles` with an empty file
list is NOT a no-op: the guard `validFiles.length === 0 && files.length > 0`
is false for an empty batch, so the code falls through, sets `isProcessing`
to `true`, and registers no reader — leaving a stuck processing flag that no
resolution can ever clear (the claim says the flag remains false). No alert
is raised and the attachment list is unchanged, as the claim states. -/
theorem c4_empty_submit_sets_processing :
    (processFiles [] initI).isProcessing = true ∧
    (processFiles [] initI).activeReaders = [] ∧
    (processFiles [] initI).attachments = [] ∧
    (processFiles [] initI).alerts = 0 ∧
    (processFiles [] initI).input = initI.input := by
  decide

theorem cleanupReader_flag (rid : Nat) (s : InputState) (hp : s.isProcessing = true) :
    (cleanupReader rid s).isProcessing
        = !(cleanupReader rid s).activeReaders.isEmpty := by
  rw [cleanupReader]
  cases hrs : (removeFirstReader rid s.activeReaders).isEmpty with
  | true => simp [hrs]
  | false => simp [hrs, hp]

/-- Claim C5: after every conversion-task resolution (load success, read
failure, or the batch abort of `cancelUpload`), `isProcessing` equals
whether the pending-conversion set is non-empty — in particular the
resolution of the last pending conversion clears the flag. Stated for any
reachable state (`runI t`) holding a pending reader with the given id. -/
theorem c5_resolution_recomputes_flag (t : List IEvent) (rid : Nat)
    (h : ∃ r ∈ (runI t).activeReaders, r.rid = rid) :
    ((stepI (.load rid) (runI t)).isProcessing
        = !(stepI (.load rid) (runI t)).activeReaders.isEmpty) ∧
    ((stepI (.readError rid) (runI t)).isProcessing
        = !(stepI (.readError rid) (runI t)).activeReaders.isEmpty) ∧
    ((stepI .cancel (runI t)).isProcessing
        = !(stepI .cancel (runI t)).activeReaders.isEmpty) := by
  obtain ⟨r, hr, hrid⟩ := h
  have hne : (runI t).activeReaders ≠ [] := by
    intro e
    rw [e] at hr
    cases hr
  have hp : (runI t).isProcessing = true := by
    rcases runI_invP t with h | h
    · exact absurd h hne
    · exact h
  have hfind : ((runI t).activeReaders.find? (fun x => x.rid == rid)).isSome := by
    exact List.find?_isSome.mpr ⟨r, hr, by simp [hrid]⟩
  obtain ⟨r', hr'⟩ := Option.isSome_iff_exists.mp hfind
  refine ⟨?_, ?_, ?_⟩
  · rw [stepI, hr']
    exact cleanupReader_flag rid _ hp
  · rw [stepI, hr']
    exact cleanupReader_flag rid _ hp
  · rw [stepI, cancelUpload_eq]
    rfl

theorem c5_resolution_recomputes_flag_witness :
    ((stepI (.load 0) (runI [IEvent.submit [pngFile]])).isProcessing
        = !(stepI (.load 0) (runI [IEvent.submit [pngFile]])).activeReaders.isEmpty) ∧
    ((stepI (.readError 0) (runI [IEvent.submit [pngFile]])).isProcessing
        = !(stepI (.readError 0) (runI [IEvent.submit [pngFile]])).activeReaders.isEmpty) ∧
    ((stepI .cancel (runI [IEvent.submit [pngFile]])).isProcessing
        = !(stepI .cancel (runI [IEvent.submit [pngFile]])).activeReaders.isEmpty) :=
  c5_resolution_recomputes_flag [IEvent.submit [pngFile]] 0 (by decide)

/-- Claim C6: `cancelUpload` aborts every pending conversion (the reader set
becomes empty and `isProcessing` false, attachments and everything else
untouched); on an already-empty set it is a no-op; after cancelling, no
attachment from the cancelled batch is ever added — every attachment in any
later state either predates the cancel or comes from an image submitted
after it; and `clearAttachments` performs the same cancellation and also
empties the attachment list. -/
theorem c6_cancel_all (s : InputState) (t : List IEvent) :
    (stepI .cancel s = { s with activeReaders := [], isProcessing := false }) ∧
    (s.activeReaders = [] → s.isProcessing = false → stepI .cancel s = s) ∧
    (∀ a ∈ (runIFrom t (stepI .cancel s)).attachments,
        a ∈ s.attachments ∨ ∃ f ∈ submittedImages t, a = attachmentOfFile f) ∧
    (stepI .clearAtts s
        = { s with activeReaders := [], isProcessing := false, attachments := [] }) := by
  refine ⟨?_, ?_, ?_, ?_⟩
  · rw [stepI, cancelUpload_eq]
  · intro h1 h2
    rw [stepI, cancelUpload_eq, ← h1, ← h2]
  · intro a ha
    have hp := attachments_provenance t (stepI .cancel s) a ha
    rw [stepI, cancelUpload_eq] at hp
    rcases hp with h | ⟨r, hr, _⟩ | ⟨f, hf, he⟩
    · exact Or.inl h
    · cases hr
    · exact Or.inr ⟨f, hf, he⟩
  · rw [stepI, cancelUpload_eq]

theorem c6_cancel_all_witness :
    stepI .cancel initI = initI ∧
    stepI .cancel (runI [IEvent.submit [pngFile]])
        = { runI [IEvent.submit [pngFile]] with
            activeReaders := [], isProcessing := false } :=
  ⟨(c6_cancel_all initI []).2.1 rfl rfl,
   (c6_cancel_all (runI [IEvent.submit [pngFile]]) []).1⟩

theorem attachmentOfFile_data (f : FFile) (hmime : ',' ∉ f.ftype.toList) :
    (attachmentOfFile f).data = b64encodeBytes f.content := by
  have hcomma : (";base64,".toList : List Char) = ";base64".toList ++ [','] := by decide
  have hsplit : dataURLChars f
      = ("data:".toList ++ f.ftype.toList ++ ";base64".toList)
          ++ ',' :: b64encodeBytes f.content := by
    rw [dataURLChars, hcomma]
    simp [List.append_assoc]
  have hpre : ',' ∉ ("data:".toList ++ f.ftype.toList ++ ";base64".toList) := by
    simp only [List.mem_append, not_or]
    exact ⟨⟨by decide, hmime⟩, by decide⟩
  have henc : ',' ∉ b64encodeBytes f.content := by
    intro hm
    exact mem_b64encodeBytes_ne_comma f.content ',' hm rfl
  show (splitOnChar ',' (dataURLChars f)).getD 1 [] = b64encodeBytes f.content
  rw [hsplit, splitOnChar_append_sep _ _ _ hpre,
      splitOnChar_of_not_mem _ _ henc]
  rfl

/-- Claim C7: for a file whose conversion succeeds (its reader's `load`
fires), the attachment appended carries as `data` exactly the base64
encoding of the file's raw bytes with the data-URL format prefix stripped,
and decoding that payload yields byte-identical content (round-trip). The
MIME-type hypothesis reflects the MIME grammar: a type token never contains
a comma. -/
theorem c7_encode_roundtrip (s : InputState) (rid : Nat) (r : Reader)
    (hfind : s.activeReaders.find? (fun x => x.rid == rid) = some r)
    (hmime : ',' ∉ r.file.ftype.toList) :
    (stepI (.load rid) s).attachments = s.attachments ++ [attachmentOfFile r.file] ∧
    (attachmentOfFile r.file).data = b64encodeBytes r.file.content ∧
    b64decodeChars (attachmentOfFile r.file).data = r.file.content.map Fin.val := by
  refine ⟨?_, attachmentOfFile_data r.file hmime, ?_⟩
  · rw [stepI, hfind]
    rfl
  · rw [attachmentOfFile_data r.file hmime, b64_roundtrip]

theorem c7_encode_roundtrip_witness :
    (stepI (.load 0) (runI [IEvent.submit [pngFile]])).attachments
        = (runI [IEvent.submit [pngFile]]).attachments ++ [attachmentOfFile pngFile] ∧
    (attachmentOfFile pngFile).data = b64encodeBytes pngFile.content ∧
    b64decodeChars (attachmentOfFile pngFile).data = pngFile.content.map Fin.val :=
  c7_encode_roundtrip (runI [IEvent.submit [pngFile]]) 0 ⟨0, pngFile⟩
    (by decide) (by decide)

/-- Claim C10: the send operation is a no-op — message list (`sent`), input
text, and attachment list all unchanged — whenever the trimmed input is empty
and there are no attachments, or a chat request is loading, or conversions
are in flight (`isProcessing`); only otherwise does it emit the message and
clear the input and the attachment list. -/
theorem c10_send_guard (s : InputState) :
    (sendBlocked s = true → stepI .send s = s) ∧
    (sendBlocked s = false →
       stepI .send s
         = { s with quotedMessage := none
                    sent := s.sent ++ [(finalText s, s.attachments)]
                    input := "", attachments := [] }) := by
  constructor
  · intro h
    rw [stepI, handleSend, if_pos h]
  · intro h
    rw [stepI, handleSend, if_neg (by simp [h])]

theorem c10_send_guard_witness :
    stepI .send initI = initI ∧
    stepI .send { initI with input := "hi", isLoading := true }
        = { initI with input := "hi", isLoading := true } ∧
    stepI .send { initI with input := "hi" }
        = { initI with sent := [("hi", [])] } :=
  ⟨(c10_send_guard initI).1 (by decide),
   (c10_send_guard { initI with input := "hi", isLoading := true }).1 (by decide),
   (c10_send_guard { initI with input := "hi" }).2 (by decide)⟩

/-- Claim C1 (code-bug exhibit): the single-flight/discard property fails on
the code. First trace: `speak m1` plays; `speak m2` supersedes it, but
`stopAudio` cannot halt the playing source (nothing ever assigns the created
source node to `activeSourceRef` — only `null` is ever written), so after
m2's audio starts TWO sources are audible at once. Second trace: `speak m1`
then `speak m1` toggles off (Idle), yet m1's synthesis result arriving
afterwards is still decoded and played — audio is audible with no active
session. -/
theorem c1_single_flight_violated :
    ((runS [SEvent.speak "m1", SEvent.synth 0 true, SEvent.decode 0 true,
            SEvent.speak "m2", SEvent.synth 1 true, SEvent.decode 1 true]).audible
        = [0, 1]) ∧
    ((runS [SEvent.speak "m1", SEvent.speak "m1", SEvent.synth 0 true,
            SEvent.decode 0 true]).audible = [0] ∧
     (runS [SEvent.speak "m1", SEvent.speak "m1", SEvent.synth 0 true,
            SEvent.decode 0 true]).isSpeakingId = none) := by
  decide

/-- Claim C2 (code-bug exhibit): two consecutive `speak` calls with the same
id do end with the session slot cleared (`isSpeakingId = none`), but NOT with
no audible output: the second call's `stopAudio` finds `activeSourceRef`
null (it is never assigned the playing source), so the audio started by the
first call keeps playing. -/
theorem c2_toggle_leaves_audio :
    ((runS [SEvent.speak "m1", SEvent.synth 0 true, SEvent.decode 0 true,
            SEvent.speak "m1"]).isSpeakingId = none) ∧
    ((runS [SEvent.speak "m1", SEvent.synth 0 true, SEvent.decode 0 true,
            SEvent.speak "m1"]).audible = [0]) := by
  decide

/-- Claim C8 counterexample: with auto-speak enabled, a synthesis failure is
logged (`console.error`) but NOT reported to the caller — no alert is raised
(`if (!autoSpeak) alert(...)`), refuting "every SynthesisError or DecodeError
is reported to the caller". The session does return to Idle. -/
theorem c8_error_not_reported :
    ((runS [SEvent.setAuto true, SEvent.speak "m1", SEvent.synth 0 false]).errorsLogged
        = 1) ∧
    ((runS [SEvent.setAuto true, SEvent.speak "m1", SEvent.synth 0 false]).alerts
        = 0) ∧
    ((runS [SEvent.setAuto true, SEvent.speak "m1", SEvent.synth 0 false]).isSpeakingId
        = none) := by
  decide

/-- Claim C8 (amended): an empty/missing synthesis payload makes the call
fail (the thrown error is logged), the failure is reported to the caller via
`alert` exactly when auto-speak is disabled, and in all cases — synthesis
failure or decode failure — the session returns to Idle: `isSpeakingId` is
cleared and the loading flag dropped, so no stale session occupies the
single-flight slot. -/
theorem c8_error_returns_idle (s : SpeakState) (i : Nat) (mid : String) :
    (s.tasks.getD i .finished = .requesting mid →
       (stepS (.synth i false) s).isSpeakingId = none ∧
       (stepS (.synth i false) s).speakingLoading = false ∧
       (stepS (.synth i false) s).errorsLogged = s.errorsLogged + 1 ∧
       (stepS (.synth i false) s).alerts
           = s.alerts + (if s.autoSpeak then 0 else 1)) ∧
    (s.tasks.getD i .finished = .decoding mid →
       (stepS (.decode i false) s).isSpeakingId = none ∧
       (stepS (.decode i false) s).speakingLoading = false ∧
       (stepS (.decode i false) s).errorsLogged = s.errorsLogged + 1 ∧
       (stepS (.decode i false) s).alerts
           = s.alerts + (if s.autoSpeak then 0 else 1)) := by
  constructor
  · intro h
    rw [stepS, h]
    exact ⟨rfl, rfl, rfl, rfl⟩
  · intro h
    rw [stepS, h]
    exact ⟨rfl, rfl, rfl, rfl⟩

theorem c8_error_returns_idle_witness :
    (stepS (.synth 0 false) (runS [SEvent.speak "m1"])).isSpeakingId = none ∧
    (stepS (.synth 0 false) (runS [SEvent.speak "m1"])).speakingLoading = false ∧
    (stepS (.synth 0 false) (runS [SEvent.speak "m1"])).errorsLogged
        = (runS [SEvent.speak "m1"]).errorsLogged + 1 ∧
    (stepS (.synth 0 false) (runS [SEvent.speak "m1"])).alerts
        = (runS [SEvent.speak "m1"]).alerts
          + (if (runS [SEvent.speak "m1"]).autoSpeak then 0 else 1) :=
  (c8_error_returns_idle (runS [SEvent.speak "m1"]) 0 "m1").1 (by decide)

/-- Claim C9 counterexample: a persisted playback-rate value outside
[0.5, 2.0] is NOT rejected when read back: the settings-load path applies it
directly (`if (savedSpeed) setTtsSpeed(parseFloat(savedSpeed))`), so a stored
2.5 becomes the configured rate even though it exceeds the slider maximum. -/
theorem c9_persisted_not_validated :
    loadSavedSpeed (some (5 / 2)) 1 = 5 / 2 ∧ sliderMax < (5 : ℚ) / 2 := by
  constructor
  · rfl
  · rw [sliderMax]
    norm_num

/-- Claim C9 (amended): rate values attempted through the slider are
constrained to the inclusive range [0.5, 2.0] at 0.1 granularity — 0.5 and
2.0 themselves are representable, and every representable value lies within
the range (so 0.3 and 2.5 are rejected by the control) — but values read
back from persisted configuration are applied as-is with no validation. -/
theorem c9_slider_range (q cur : ℚ) :
    rangeAccepts sliderMin ∧
    rangeAccepts sliderMax ∧
    (rangeAccepts q → sliderMin ≤ q ∧ q ≤ sliderMax) ∧
    loadSavedSpeed (some q) cur = q := by
  refine ⟨⟨0, by omega, by rw [sliderMin, sliderStep]; norm_num⟩,
          ⟨15, by omega, by rw [sliderMin, sliderMax, sliderStep]; norm_num⟩,
          ?_, rfl⟩
  rintro ⟨k, hk, rfl⟩
  have hk15 : (k : ℚ) ≤ 15 := by exact_mod_cast hk
  have hk0 : (0 : ℚ) ≤ (k : ℚ) := Nat.cast_nonneg k
  rw [sliderMin, sliderMax, sliderStep]
  constructor
  · nlinarith
  · nlinarith

theorem c9_slider_range_witness :
    sliderMin ≤ sliderMin ∧ sliderMin ≤ sliderMax :=
  (c9_slider_range sliderMin 1).2.2.1 (c9_slider_range sliderMin 1).1

end Spec2Proof
